import Mathlib

/-!
Verification of the MQTT 3 packet encoder (`src/mqtt3/src/write.rs` of
hmvp/rust-mq).

The encoder writes through an abstract byte sink.  We model the sink as the
list of bytes appended (a `List Nat`, each element a byte value), and each
fallible write as a pair `(bytes appended so far, optional error)`.  Rust
strings and byte buffers are modelled by their byte sequences (`List Nat`);
`len()` is `List.length` (the byte length).  The constant
`MAX_PAYLOAD_SIZE` is declared in the crate root, which is not part of the
sources; the spec calls it an implementation-defined, tunable cap, so every
function takes it as an explicit parameter named `MAX_PAYLOAD_SIZE`.
-/

namespace Mqtt3

/-- Modelled from the spec: the error kinds of the crate's `Error` type that
the encoder can raise (`error.rs` is not among the sources; §7 of the spec
lists `PayloadTooLong` and `UnsupportedPacketType`; sink failure does not
arise for an in-memory sink). -/
inductive Error where
  | PayloadTooLong
  | UnsupportedPacketType
deriving DecidableEq, Repr

/-- Modelled from the spec: `QoS` with ordinal values 0, 1, 2 (declared in
the crate root, not among the sources). -/
inductive QoS where
  | AtMostOnce
  | AtLeastOnce
  | ExactlyOnce
deriving DecidableEq, Repr

/-- Modelled from the spec: `QoS::to_u8` returns the ordinal. -/
def QoS.to_u8 : QoS → Nat
  | .AtMostOnce => 0
  | .AtLeastOnce => 1
  | .ExactlyOnce => 2

/-- Modelled from the spec: `Protocol` carries a protocol family (a name
string) and a numeric level byte; the two families visible in the sources
are `MQTT` (name bytes "MQTT") and `MQIsdp` (name bytes "MQIsdp"). -/
inductive Protocol where
  | MQTT (level : Nat)
  | MQIsdp (level : Nat)
deriving DecidableEq, Repr

/-- Modelled from the spec: `Protocol::name()`, the protocol name as its
UTF-8 bytes ("MQTT" resp. "MQIsdp"). -/
def Protocol.name : Protocol → List Nat
  | .MQTT _ => [77, 81, 84, 84]
  | .MQIsdp _ => [77, 81, 73, 115, 100, 112]

/-- Modelled from the spec: `Protocol::level()`, the numeric level byte. -/
def Protocol.level : Protocol → Nat
  | .MQTT l => l
  | .MQIsdp l => l

/-- Modelled from the spec: a 16-bit packet identifier (newtype over u16). -/
structure PacketIdentifier where
  val : Nat
deriving DecidableEq, Repr

/-- Modelled from the spec: the optional last-will payload on Connect. -/
structure LastWill where
  topic : List Nat
  message : List Nat
  retain : Bool
  qos : QoS
deriving DecidableEq, Repr

/-- Modelled from the spec: the Connect packet payload (fields as consumed
by the Connect arm of `write_packet`). -/
structure Connect where
  protocol : Protocol
  keep_alive : Nat
  client_id : List Nat
  clean_session : Bool
  last_will : Option LastWill
  username : Option (List Nat)
  password : Option (List Nat)
deriving DecidableEq, Repr

/-- Modelled from the spec: a connect return code; the sources only exhibit
`Accepted` (byte 0); other codes carry their byte value. -/
inductive ConnectReturnCode where
  | Accepted
  | Other (code : Nat)
deriving DecidableEq, Repr

/-- Modelled from the spec: `ConnectReturnCode::to_u8`. -/
def ConnectReturnCode.to_u8 : ConnectReturnCode → Nat
  | .Accepted => 0
  | .Other c => c

/-- Modelled from the spec: the Connack packet payload. -/
structure Connack where
  session_present : Bool
  code : ConnectReturnCode
deriving DecidableEq, Repr

/-- Modelled from the spec: the Publish packet payload (fields as consumed
by the Publish arm of `write_packet`). -/
structure Publish where
  dup : Bool
  qos : QoS
  retain : Bool
  topic_name : List Nat
  pid : Option PacketIdentifier
  payload : List Nat
deriving DecidableEq, Repr

/-- Modelled from the spec: the Subscribe packet payload. -/
structure Subscribe where
  pid : PacketIdentifier
  topics : List (List Nat × QoS)
deriving DecidableEq, Repr

/-- Modelled from the spec: the Suback packet payload; each return code is a
pair (error flag, granted QoS), as destructured by the Suback arm. -/
structure Suback where
  pid : PacketIdentifier
  return_codes : List (Bool × QoS)
deriving DecidableEq, Repr

/-- Modelled from the spec: the Unsubscribe packet payload (its arm ignores
the payload and fails with `UnsupportedPacketType`). -/
structure Unsubscribe where
  pid : PacketIdentifier
  topics : List (List Nat)
deriving DecidableEq, Repr

/-- Modelled from the spec: the closed `Packet` variant type, one case per
protocol message kind. -/
inductive Packet where
  | Connect (c : Connect)
  | Connack (c : Connack)
  | Publish (p : Publish)
  | Puback (pid : PacketIdentifier)
  | Pubrec (pid : PacketIdentifier)
  | Pubrel (pid : PacketIdentifier)
  | Pubcomp (pid : PacketIdentifier)
  | Subscribe (s : Subscribe)
  | Suback (s : Suback)
  | Unsubscribe (u : Unsubscribe)
  | Unsuback (pid : PacketIdentifier)
  | Pingreq
  | Pingresp
  | Disconnect
deriving DecidableEq, Repr

/-- The sink capability `write_u8`: append one byte (a u8, hence mod 256). -/
def write_u8 (b : Nat) : List Nat := [b % 256]

/-- The sink capability `write_u16::<BigEndian>`: append a 16-bit value
big-endian (high byte first). -/
def write_u16_be (v : Nat) : List Nat := [v / 256 % 256, v % 256]

/-- The emit loop of `write_remaining_length` (write.rs lines 151-162):
repeatedly take the low 7 bits, set the continuation bit 0x80 whenever the
remaining quotient is nonzero, and continue with the quotient; a do-while,
so it always emits at least one byte. -/
def remLenLoop (x : Nat) : List Nat :=
  if h : 0 < x / 128 then (x % 128 + 128) :: remLenLoop (x / 128) else [x % 128]
termination_by x
decreasing_by omega

/-- `MqttWrite::write_remaining_length` (write.rs lines 146-165): fail with
`PayloadTooLong` before emitting anything when the requested length exceeds
the cap, otherwise run the emit loop. -/
def write_remaining_length (MAX_PAYLOAD_SIZE len : Nat) :
    List Nat × Option Error :=
  if len > MAX_PAYLOAD_SIZE then ([], some Error.PayloadTooLong)
  else (remLenLoop len, none)

/-- `MqttWrite::write_mqtt_string` (write.rs lines 140-144): a 2-byte
big-endian prefix holding `string.len() as u16` (the byte length truncated
to 16 bits), then the raw bytes.  It never fails. -/
def write_mqtt_string (s : List Nat) : List Nat :=
  write_u16_be (s.length % 65536) ++ s

/-- The remaining-length value the Connect arm computes (write.rs lines
23-32): 8 + protocol name + client id, plus 4 + topic + message if a will is
present, plus 2 + username if present, plus 2 + password if present. -/
def connectRemainingLen (c : Connect) : Nat :=
  8 + c.protocol.name.length + c.client_id.length
    + (match c.last_will with
       | some w => 4 + w.topic.length + w.message.length
       | none => 0)
    + (match c.username with | some u => 2 + u.length | none => 0)
    + (match c.password with | some p => 2 + p.length | none => 0)

/-- The connect-flags byte (write.rs lines 36-52): bit 0x02 clean session,
0x04 will present, will QoS shifted left 3, 0x20 will retain, 0x40 password
present, 0x80 username present. -/
def connectFlags (c : Connect) : Nat :=
  (if c.clean_session then 0x02 else 0)
    ||| (match c.last_will with
         | some w =>
             0x04 ||| (w.qos.to_u8 <<< 3) ||| (if w.retain then 0x20 else 0)
         | none => 0)
    ||| (if c.password.isSome then 0x40 else 0)
    ||| (if c.username.isSome then 0x80 else 0)

/-- The Publish fixed-header byte (write.rs line 73):
`0b00110000 | retain | (qos << 1) | (dup << 3)`. -/
def publishHeader (p : Publish) : Nat :=
  0b00110000 ||| (cond p.retain 1 0) ||| (p.qos.to_u8 <<< 1)
    ||| ((cond p.dup 1 0) <<< 3)

/-- The remaining-length value the Subscribe arm computes (write.rs lines
98-102): starting from 2, add `topic.len() + 3` per topic. -/
def subscribeRemainingLen (s : Subscribe) : Nat :=
  s.topics.foldl (fun len t => len + (t.1.length + 3)) 2

/-- `MqttWrite::write_packet` (write.rs lines 18-138): dispatch on the
packet kind; the result is the byte sequence appended to the sink (also on
failure, where it holds whatever was written before the error) together
with the error, if any. -/
def write_packet (MAX_PAYLOAD_SIZE : Nat) : Packet → List Nat × Option Error
  | .Connect c =>
      match write_remaining_length MAX_PAYLOAD_SIZE (connectRemainingLen c) with
      | (_, some e) => (write_u8 0b00010000, some e)
      | (rl, none) =>
          (write_u8 0b00010000 ++ rl ++ write_mqtt_string c.protocol.name
            ++ write_u8 c.protocol.level
            ++ write_u8 (connectFlags c)
            ++ write_u16_be c.keep_alive
            ++ write_mqtt_string c.client_id
            ++ (match c.last_will with
                | some w => write_mqtt_string w.topic ++ write_mqtt_string w.message
                | none => [])
            ++ (match c.username with | some u => write_mqtt_string u | none => [])
            ++ (match c.password with | some p => write_mqtt_string p | none => []),
           none)
  | .Connack c =>
      ([0x20, 0x02, cond c.session_present 1 0, c.code.to_u8], none)
  | .Publish p =>
      match write_remaining_length MAX_PAYLOAD_SIZE
          (p.topic_name.length + 4 + p.payload.length) with
      | (_, some e) => (write_u8 (publishHeader p), some e)
      | (rl, none) =>
          (write_u8 (publishHeader p) ++ rl ++ write_mqtt_string p.topic_name
            ++ (if p.qos ≠ QoS.AtMostOnce then
                  match p.pid with
                  | some pid => write_u16_be pid.val
                  | none => []
                else [])
            ++ p.payload,
           none)
  | .Puback pid => ([0x40, 0x02] ++ write_u16_be pid.val, none)
  | .Pubrec _ => ([], some Error.UnsupportedPacketType)
  | .Pubrel pid => ([0x62, 0x02] ++ write_u16_be pid.val, none)
  | .Pubcomp _ => ([], some Error.UnsupportedPacketType)
  | .Subscribe s =>
      match write_remaining_length MAX_PAYLOAD_SIZE (subscribeRemainingLen s) with
      | (_, some e) => ([0x82], some e)
      | (rl, none) =>
          ([0x82] ++ rl ++ write_u16_be s.pid.val
            ++ (s.topics.map
                 (fun t => write_mqtt_string t.1 ++ write_u8 t.2.to_u8)).flatten,
           none)
  | .Suback s =>
      match write_remaining_length MAX_PAYLOAD_SIZE (s.return_codes.length + 2) with
      | (_, some e) => ([0x90], some e)
      | (rl, none) =>
          ([0x90] ++ rl ++ write_u16_be s.pid.val
            ++ s.return_codes.map
                 (fun rc => Nat.land ((cond rc.1 1 0) <<< 7) rc.2.to_u8),
           none)
  | .Unsubscribe _ => ([], some Error.UnsupportedPacketType)
  | .Unsuback pid => ([0xB0, 0x02] ++ write_u16_be pid.val, none)
  | .Pingreq => ([0xc0, 0], none)
  | .Pingresp => ([0xd0, 0], none)
  | .Disconnect => ([0xe0, 0], none)

/-- Modelled from the spec: the base-128 variable-length decoder (the
decoder is an external collaborator, not among the sources; §4.1 of the
spec: each byte holds 7 value bits in its low bits, groups are
least-significant-first). -/
def remLenDecode : List Nat → Nat
  | [] => 0
  | b :: rest => b % 128 + 128 * remLenDecode rest

/-- Unfolding lemma for the emit loop. -/
lemma remLenLoop_eq (x : Nat) :
    remLenLoop x =
      if 0 < x / 128 then (x % 128 + 128) :: remLenLoop (x / 128)
      else [x % 128] := by
  rw [remLenLoop]
  split <;> simp_all

/-- Below 128 the loop emits a single byte, the value itself. -/
lemma remLenLoop_low {x : Nat} (h : x < 128) : remLenLoop x = [x] := by
  rw [remLenLoop_eq, if_neg (by omega)]
  congr 1
  omega

/-- From 128 on the loop emits the low 7 bits with the continuation bit,
then recurses on the quotient. -/
lemma remLenLoop_high {x : Nat} (h : 128 ≤ x) :
    remLenLoop x = (x % 128 + 128) :: remLenLoop (x / 128) := by
  rw [remLenLoop_eq, if_pos (by omega)]

/-- Decoding the loop's output recovers the encoded value. -/
lemma remLenDecode_remLenLoop (x : Nat) :
    remLenDecode (remLenLoop x) = x := by
  induction x using Nat.strong_induction_on with
  | _ x ih =>
    by_cases h : x < 128
    · rw [remLenLoop_low h, remLenDecode, remLenDecode]
      omega
    · rw [remLenLoop_high (by omega), remLenDecode,
        ih (x / 128) (Nat.div_lt_self (by omega) (by norm_num))]
      omega

/-- Any decoded value is below 128 to the number of bytes. -/
lemma remLenDecode_lt (bs : List Nat) :
    remLenDecode bs < 128 ^ bs.length := by
  induction bs with
  | nil => simp [remLenDecode]
  | cons b rest ih =>
    rw [remLenDecode, List.length_cons, pow_succ]
    have hb : b % 128 < 128 := Nat.mod_lt _ (by norm_num)
    calc b % 128 + 128 * remLenDecode rest
        < 128 * (remLenDecode rest + 1) := by omega
      _ ≤ 128 * 128 ^ rest.length := Nat.mul_le_mul_left _ (by omega)
      _ = 128 ^ rest.length * 128 := Nat.mul_comm _ _

/-- The encoded value is below 128 to the loop's output length. -/
lemma remLenLoop_lt (x : Nat) : x < 128 ^ (remLenLoop x).length := by
  induction x using Nat.strong_induction_on with
  | _ x ih =>
    by_cases h : x < 128
    · rw [remLenLoop_low h]
      simpa using h
    · rw [remLenLoop_high (by omega), List.length_cons, pow_succ]
      have ihx := ih (x / 128) (Nat.div_lt_self (by omega) (by norm_num))
      calc x < 128 * (x / 128 + 1) := by omega
        _ ≤ 128 * 128 ^ (remLenLoop (x / 128)).length :=
            Nat.mul_le_mul_left _ (by omega)
        _ = 128 ^ (remLenLoop (x / 128)).length * 128 := Nat.mul_comm _ _

/-- The loop's output is as short as the value's base-128 digit count
allows: any exponent bounding the value bounds the length. -/
lemma remLenLoop_length_le {n x : Nat} (hx : x < 128 ^ n) (hn : 1 ≤ n) :
    (remLenLoop x).length ≤ n := by
  induction n generalizing x with
  | zero => omega
  | succ n ih =>
    by_cases h : x < 128
    · rw [remLenLoop_low h]
      simp
    · rw [remLenLoop_high (by omega), List.length_cons]
      have hdiv : x / 128 < 128 ^ n := by
        rw [Nat.div_lt_iff_lt_mul (by norm_num)]
        calc x < 128 ^ (n + 1) := hx
          _ = 128 ^ n * 128 := pow_succ 128 n
      rcases Nat.eq_zero_or_pos n with hz | hp
      · subst hz
        simp at hdiv
        omega
      · exact Nat.succ_le_succ (ih hdiv hp)

/-- Continuation-bit structure of the loop's output: all bytes but the last
carry the high bit (and are valid bytes), the last byte is below 128. -/
lemma remLenLoop_shape (x : Nat) :
    ∃ body final, remLenLoop x = body ++ [ final] ∧ final < 128 ∧
      ∀ b ∈ body, 128 ≤ b ∧ b < 256 := by
  induction x using Nat.strong_induction_on with
  | _ x ih =>
    by_cases h : x < 128
    · exact ⟨[], x, by rw [remLenLoop_low h]; simp, by omega, by simp⟩
    · obtain ⟨body, final, heq, hlt, hmem⟩ :=
        ih (x / 128) (Nat.div_lt_self (by omega) (by norm_num))
      refine ⟨(x % 128 + 128) :: body, final, ?_, hlt, ?_⟩
      · rw [remLenLoop_high (by omega), heq]
        simp
      · intro b hb
        rcases List.mem_cons.mp hb with hb | hb
        · subst hb
          have : x % 128 < 128 := Nat.mod_lt _ (by norm_num)
          omega
        · exact hmem b hb

/-- C4: for every requested length strictly above the cap,
`write_remaining_length` fails with `PayloadTooLong` and appends zero bytes
to the sink — the cap check happens before any byte is emitted. -/
theorem C4_cap_checked_before_any_byte (MAX_PAYLOAD_SIZE L : Nat)
    (h : MAX_PAYLOAD_SIZE < L) :
    write_remaining_length MAX_PAYLOAD_SIZE L =
      ([], some Error.PayloadTooLong) := by
  rw [write_remaining_length, if_pos (by omega)]

/-- Witness for C4 at cap 5 and length 6. -/
theorem C4_cap_checked_before_any_byte_witness :
    5 < 6 ∧ write_remaining_length 5 6 = ([], some Error.PayloadTooLong) :=
  ⟨by norm_num, C4_cap_checked_before_any_byte 5 6 (by norm_num)⟩

/-- C5: for every length up to the cap, `write_remaining_length` emits the
base-128 groups least-significant-first, decoding recovers the length, the
byte count is minimal (1 byte below 128, at most 2 below 16384), and every
byte except the last carries the continuation bit 0x80 while the last byte
is below 128. -/
theorem C5_remaining_length_base128 (MAX_PAYLOAD_SIZE L : Nat)
    (h : L ≤ MAX_PAYLOAD_SIZE) :
    write_remaining_length MAX_PAYLOAD_SIZE L = (remLenLoop L, none)
    ∧ remLenDecode (remLenLoop L) = L
    ∧ (∀ bs : List Nat, bs ≠ [] → remLenDecode bs = L →
        (remLenLoop L).length ≤ bs.length)
    ∧ (L < 128 → (remLenLoop L).length = 1)
    ∧ (L < 16384 → (remLenLoop L).length ≤ 2)
    ∧ (∃ body final, remLenLoop L = body ++ [ final] ∧ final < 128 ∧
        ∀ b ∈ body, 128 ≤ b ∧ b < 256) := by
  refine ⟨?_, remLenDecode_remLenLoop L, ?_, ?_, ?_, remLenLoop_shape L⟩
  · rw [write_remaining_length, if_neg (by omega)]
  · intro bs hne hdec
    have h1 : L < 128 ^ bs.length := hdec ▸ remLenDecode_lt bs
    exact remLenLoop_length_le h1 (List.length_pos.mpr hne)
  · intro h1
    rw [remLenLoop_low h1]
    rfl
  · intro h1
    have h2 : L < 128 ^ 2 := lt_of_lt_of_eq h1 (by norm_num)
    exact remLenLoop_length_le h2 (by norm_num)

/-- Witness for C5 at cap 268435455 and length 1000. -/
theorem C5_remaining_length_base128_witness :
    (1000 : Nat) ≤ 268435455
    ∧ (write_remaining_length 268435455 1000 = (remLenLoop 1000, none)
      ∧ remLenDecode (remLenLoop 1000) = 1000
      ∧ (∀ bs : List Nat, bs ≠ [] → remLenDecode bs = 1000 →
          (remLenLoop 1000).length ≤ bs.length)
      ∧ (1000 < 128 → (remLenLoop 1000).length = 1)
      ∧ (1000 < 16384 → (remLenLoop 1000).length ≤ 2)
      ∧ (∃ body final, remLenLoop 1000 = body ++ [ final] ∧ final < 128 ∧
          ∀ b ∈ body, 128 ≤ b ∧ b < 256)) :=
  ⟨by norm_num, C5_remaining_length_base128 268435455 1000 (by norm_num)⟩

/-- C3: for every string of byte length above 65535, `write_mqtt_string`
does not fail: it writes a 2-byte big-endian prefix holding the byte length
reduced mod 65536 — a wrapped, strictly smaller value — followed by all of
the string's bytes. -/
theorem C3_oversized_string_truncated (s : List Nat)
    (h : 65535 < s.length) :
    write_mqtt_string s = write_u16_be (s.length % 65536) ++ s
    ∧ s.length % 65536 < s.length := by
  refine ⟨rfl, ?_⟩
  have h2 : s.length % 65536 < 65536 := Nat.mod_lt _ (by norm_num)
  omega

/-- Witness for C3 on a 70000-byte string. -/
theorem C3_oversized_string_truncated_witness :
    65535 < (List.replicate 70000 0).length
    ∧ (write_mqtt_string (List.replicate 70000 0) =
        write_u16_be ((List.replicate 70000 0).length % 65536)
          ++ List.replicate 70000 0
      ∧ (List.replicate 70000 0).length % 65536 <
          (List.replicate 70000 0).length) :=
  ⟨by rw [List.length_replicate]; norm_num,
   C3_oversized_string_truncated (List.replicate 70000 0)
     (by rw [List.length_replicate]; norm_num)⟩

/-- C6: for every string of byte length at most 65535, `write_mqtt_string`
appends exactly len+2 bytes: the 2-byte big-endian length, then the raw
bytes. -/
theorem C6_string_within_bounds (s : List Nat) (h : s.length ≤ 65535) :
    write_mqtt_string s = [s.length / 256, s.length % 256] ++ s
    ∧ (write_mqtt_string s).length = s.length + 2 := by
  have h1 : s.length % 65536 = s.length := Nat.mod_eq_of_lt (by omega)
  have h2 : s.length / 256 % 256 = s.length / 256 :=
    Nat.mod_eq_of_lt (by omega)
  refine ⟨?_, ?_⟩
  · simp [write_mqtt_string, write_u16_be, h1, h2]
  · simp [write_mqtt_string, write_u16_be]

/-- Witness for C6 on the 3-byte string [7, 8, 9]. -/
theorem C6_string_within_bounds_witness :
    ([7, 8, 9] : List Nat).length ≤ 65535
    ∧ (write_mqtt_string [7, 8, 9] =
        [[7, 8, 9].length / 256, ([7, 8, 9] : List Nat).length % 256] ++ [7, 8, 9]
      ∧ (write_mqtt_string [7, 8, 9]).length = ([7, 8, 9] : List Nat).length + 2) :=
  ⟨by simp, C6_string_within_bounds [7, 8, 9] (by simp)⟩

/-- C7: encoding Pubrec, Pubcomp or Unsubscribe fails with
`UnsupportedPacketType` and appends zero bytes to the sink. -/
theorem C7_unsupported_packet_types (MAX_PAYLOAD_SIZE : Nat)
    (p q : PacketIdentifier) (u : Unsubscribe) :
    write_packet MAX_PAYLOAD_SIZE (Packet.Pubrec p) =
      ([], some Error.UnsupportedPacketType)
    ∧ write_packet MAX_PAYLOAD_SIZE (Packet.Pubcomp q) =
      ([], some Error.UnsupportedPacketType)
    ∧ write_packet MAX_PAYLOAD_SIZE (Packet.Unsubscribe u) =
      ([], some Error.UnsupportedPacketType) :=
  ⟨rfl, rfl, rfl⟩

/-- C1: every Suback packet is encoded as the fixed header 0x90, the
remaining-length field for count+2, the 16-bit big-endian packet
identifier, and one byte per return code, each computed as the bitwise AND
of the error flag shifted left by 7 with the granted-QoS byte. -/
theorem C1_suback_result_bytes (MAX_PAYLOAD_SIZE : Nat) (s : Suback)
    (h : s.return_codes.length + 2 ≤ MAX_PAYLOAD_SIZE) :
    write_packet MAX_PAYLOAD_SIZE (Packet.Suback s) =
      ([0x90] ++ remLenLoop (s.return_codes.length + 2)
        ++ write_u16_be s.pid.val
        ++ s.return_codes.map
             (fun rc => Nat.land ((cond rc.1 1 0) <<< 7) rc.2.to_u8),
       none) := by
  have hrl : write_remaining_length MAX_PAYLOAD_SIZE
      (s.return_codes.length + 2) =
      (remLenLoop (s.return_codes.length + 2), none) := by
    rw [write_remaining_length, if_neg (by omega)]
  simp only [write_packet, hrl]

/-- Witness for C1: a Suback with identifier 10 and return codes
[(true, AtLeastOnce), (false, AtMostOnce)]. -/
theorem C1_suback_result_bytes_witness :
    (Suback.mk ⟨10⟩ [(true, QoS.AtLeastOnce), (false, QoS.AtMostOnce)]
        ).return_codes.length + 2 ≤ 268435455
    ∧ write_packet 268435455
        (Packet.Suback
          (Suback.mk ⟨10⟩ [(true, QoS.AtLeastOnce), (false, QoS.AtMostOnce)])) =
      ([0x90]
        ++ remLenLoop
            ((Suback.mk ⟨10⟩ [(true, QoS.AtLeastOnce), (false, QoS.AtMostOnce)]
                ).return_codes.length + 2)
        ++ write_u16_be
            (Suback.mk ⟨10⟩ [(true, QoS.AtLeastOnce), (false, QoS.AtMostOnce)]
                ).pid.val
        ++ (Suback.mk ⟨10⟩ [(true, QoS.AtLeastOnce), (false, QoS.AtMostOnce)]
              ).return_codes.map
              (fun rc => Nat.land ((cond rc.1 1 0) <<< 7) rc.2.to_u8),
       none) :=
  ⟨by simp, C1_suback_result_bytes 268435455 _ (by simp)⟩

/-- C2: for every Publish packet — whatever its QoS and whether or not an
identifier is written — the remaining-length field after the fixed header
encodes len(topic) + 4 + len(payload), always reserving 2 bytes for the
identifier slot on top of the 2-byte topic length prefix. -/
theorem C2_publish_length_reserves_pid_slot (MAX_PAYLOAD_SIZE : Nat)
    (p : Publish)
    (h : p.topic_name.length + 4 + p.payload.length ≤ MAX_PAYLOAD_SIZE) :
    ∃ rest, write_packet MAX_PAYLOAD_SIZE (Packet.Publish p) =
        (write_u8 (publishHeader p)
          ++ (remLenLoop (p.topic_name.length + 4 + p.payload.length)
              ++ rest),
         none)
      ∧ remLenDecode (remLenLoop (p.topic_name.length + 4 + p.payload.length))
          = p.topic_name.length + 4 + p.payload.length := by
  have hrl : write_remaining_length MAX_PAYLOAD_SIZE
      (p.topic_name.length + 4 + p.payload.length) =
      (remLenLoop (p.topic_name.length + 4 + p.payload.length), none) := by
    rw [write_remaining_length, if_neg (by omega)]
  refine ⟨write_mqtt_string p.topic_name
      ++ ((if p.qos ≠ QoS.AtMostOnce then
            match p.pid with
            | some pid => write_u16_be pid.val
            | none => []
          else []) ++ p.payload), ?_, remLenDecode_remLenLoop _⟩
  simp only [write_packet, hrl]
  simp [List.append_assoc]

/-- A sample QoS-1 Publish with an identifier, used by witnesses. -/
def publishSample : Publish where
  dup := false
  qos := QoS.AtLeastOnce
  retain := false
  topic_name := [97]
  pid := some ⟨10⟩
  payload := [1, 2]

/-- Witness for C2 on a QoS-1 Publish with identifier 10. -/
theorem C2_publish_length_reserves_pid_slot_witness :
    publishSample.topic_name.length + 4 + publishSample.payload.length
        ≤ 268435455
    ∧ (∃ rest, write_packet 268435455 (Packet.Publish publishSample) =
        (write_u8 (publishHeader publishSample)
          ++ (remLenLoop (publishSample.topic_name.length + 4
                + publishSample.payload.length) ++ rest),
         none)
      ∧ remLenDecode
          (remLenLoop (publishSample.topic_name.length + 4
            + publishSample.payload.length))
          = publishSample.topic_name.length + 4
            + publishSample.payload.length) :=
  ⟨by decide, C2_publish_length_reserves_pid_slot 268435455 publishSample
    (by decide)⟩

/-- C10: for every Publish whose QoS is above AtMostOnce but whose
identifier field is absent, encoding succeeds, no identifier bytes are
written, and the declared remaining length exceeds the number of bytes
actually written after the length field by exactly 2. -/
theorem C10_publish_qos_without_pid (MAX_PAYLOAD_SIZE : Nat) (p : Publish)
    (hq : p.qos ≠ QoS.AtMostOnce) (hp : p.pid = none)
    (h : p.topic_name.length + 4 + p.payload.length ≤ MAX_PAYLOAD_SIZE) :
    write_packet MAX_PAYLOAD_SIZE (Packet.Publish p) =
      (write_u8 (publishHeader p)
        ++ remLenLoop (p.topic_name.length + 4 + p.payload.length)
        ++ (write_mqtt_string p.topic_name ++ p.payload),
       none)
    ∧ p.topic_name.length + 4 + p.payload.length
        = (write_mqtt_string p.topic_name ++ p.payload).length + 2 := by
  have hrl : write_remaining_length MAX_PAYLOAD_SIZE
      (p.topic_name.length + 4 + p.payload.length) =
      (remLenLoop (p.topic_name.length + 4 + p.payload.length), none) := by
    rw [write_remaining_length, if_neg (by omega)]
  constructor
  · simp only [write_packet, hrl, hp]
    rw [if_pos hq]
    simp [List.append_assoc]
  · simp [write_mqtt_string, write_u16_be]
    omega

/-- A QoS-1 Publish without an identifier, used by witnesses. -/
def publishNoPid : Publish where
  dup := false
  qos := QoS.AtLeastOnce
  retain := false
  topic_name := [97]
  pid := none
  payload := [1, 2]

/-- Witness for C10 on a QoS-1 Publish with no identifier. -/
theorem C10_publish_qos_without_pid_witness :
    publishNoPid.qos ≠ QoS.AtMostOnce
    ∧ publishNoPid.pid = none
    ∧ publishNoPid.topic_name.length + 4 + publishNoPid.payload.length
        ≤ 268435455
    ∧ (write_packet 268435455 (Packet.Publish publishNoPid) =
        (write_u8 (publishHeader publishNoPid)
          ++ remLenLoop (publishNoPid.topic_name.length + 4
              + publishNoPid.payload.length)
          ++ (write_mqtt_string publishNoPid.topic_name
              ++ publishNoPid.payload),
         none)
      ∧ publishNoPid.topic_name.length + 4 + publishNoPid.payload.length
          = (write_mqtt_string publishNoPid.topic_name
              ++ publishNoPid.payload).length + 2) :=
  ⟨by decide, rfl, by decide,
   C10_publish_qos_without_pid 268435455 publishNoPid (by decide) rfl
     (by decide)⟩

/-- The Connect value of the spec's Connect scenario: protocol family MQTT
level 4, keep-alive 10, client id "test", clean session, will topic "/a"
with message "offline" (retain false, QoS AtLeastOnce), username "user",
password "mq" — strings given as their UTF-8 bytes. -/
def connectScenario : Connect where
  protocol := Protocol.MQTT 4
  keep_alive := 10
  client_id := [116, 101, 115, 116]
  clean_session := true
  last_will := some
    { topic := [47, 97]
      message := [111, 102, 102, 108, 105, 110, 101]
      retain := false
      qos := QoS.AtLeastOnce }
  username := some [117, 115, 101, 114]
  password := some [109, 113]

/-- C8: the spec's Connect scenario encodes to exactly the 41-byte frame
10 27 00 04 'M''Q''T''T' 04 CE 00 0A 00 04 't''e''s''t' 00 02 '/''a' 00 07
'o''f''f''l''i''n''e' 00 04 'u''s''e''r' 00 02 'm''q' (remaining length 39,
connect-flags byte 0xCE, fields in the fixed order protocol name, level,
flags, keep-alive, client id, will topic, will message, username,
password). -/
theorem C8_connect_scenario (MAX_PAYLOAD_SIZE : Nat)
    (h : 39 ≤ MAX_PAYLOAD_SIZE) :
    write_packet MAX_PAYLOAD_SIZE (Packet.Connect connectScenario) =
      ([0x10, 0x27,
        0x00, 0x04, 77, 81, 84, 84,
        0x04,
        0xCE,
        0x00, 0x0A,
        0x00, 0x04, 116, 101, 115, 116,
        0x00, 0x02, 47, 97,
        0x00, 0x07, 111, 102, 102, 108, 105, 110, 101,
        0x00, 0x04, 117, 115, 101, 114,
        0x00, 0x02, 109, 113], none) := by
  have h39 : connectRemainingLen connectScenario = 39 := by decide
  have hrl : write_remaining_length MAX_PAYLOAD_SIZE
      (connectRemainingLen connectScenario) = ([39], none) := by
    rw [h39, write_remaining_length, if_neg (by omega),
      remLenLoop_low (by norm_num)]
  simp only [write_packet, hrl]
  rfl

/-- Witness for C8 at cap 268435455. -/
theorem C8_connect_scenario_witness :
    39 ≤ 268435455
    ∧ write_packet 268435455 (Packet.Connect connectScenario) =
      ([0x10, 0x27,
        0x00, 0x04, 77, 81, 84, 84,
        0x04,
        0xCE,
        0x00, 0x0A,
        0x00, 0x04, 116, 101, 115, 116,
        0x00, 0x02, 47, 97,
        0x00, 0x07, 111, 102, 102, 108, 105, 110, 101,
        0x00, 0x04, 117, 115, 101, 114,
        0x00, 0x02, 109, 113], none) :=
  ⟨by norm_num, C8_connect_scenario 268435455 (by norm_num)⟩

/-- C9: for every Connect packet whose computed remaining length exceeds
the cap, `write_packet` fails with `PayloadTooLong` with the fixed header
byte 0x10 already in the sink — a one-byte partial, invalid frame. -/
theorem C9_connect_partial_frame_on_overflow (MAX_PAYLOAD_SIZE : Nat)
    (c : Connect) (h : MAX_PAYLOAD_SIZE < connectRemainingLen c) :
    write_packet MAX_PAYLOAD_SIZE (Packet.Connect c) =
      ([0x10], some Error.PayloadTooLong) := by
  have hrl : write_remaining_length MAX_PAYLOAD_SIZE
      (connectRemainingLen c) = ([], some Error.PayloadTooLong) := by
    rw [write_remaining_length, if_pos (by omega)]
  simp only [write_packet, hrl]
  rfl

/-- Witness for C9: a minimal Connect against cap 0. -/
theorem C9_connect_partial_frame_on_overflow_witness :
    0 < connectRemainingLen ⟨Protocol.MQTT 4, 0, [], false, none, none, none⟩
    ∧ write_packet 0
        (Packet.Connect ⟨Protocol.MQTT 4, 0, [], false, none, none, none⟩) =
      ([0x10], some Error.PayloadTooLong) :=
  ⟨by decide, C9_connect_partial_frame_on_overflow 0
    ⟨Protocol.MQTT 4, 0, [], false, none, none, none⟩ (by decide)⟩

end Mqtt3
